import Mathlib

/-!
Verification development for `src/python/async-daily-requester/reqsched.py`.

The script schedules one-shot HTTP GET requests at given wall-clock times of
day.  We embed its pure data flow shallowly:

* Python `datetime.time` values become the `Time` structure (hour, minute,
  second, microsecond) with the lexicographic comparison Python uses;
* Python `datetime.date`/`datetime.datetime` become `Date`/`DateTime`, with
  the proleptic-Gregorian ordinal that `datetime` arithmetic is based on;
* `datetime.strptime(s, "%H:%M:%S")` is modelled by `parse_timestring`,
  following the field regexes of CPython's `_strptime`
  (`H`: `2[0-3]|[0-1]\d|\d`, `M`: `[0-5]\d|\d`, `S`: `6[0-1]|[0-5]\d|\d`),
  followed by the `datetime` constructor's range check (`second <= 59`).
  The regexes are compiled without `re.ASCII`, so their `\d` matches every
  Unicode decimal digit (category Nd, embedded as the run table
  `ndStarts`), which `int()` then converts by decimal value; the bracketed
  classes and digit literals of the patterns are ASCII-only;
* the event loop is elided: a task's single network call is represented by a
  `Request` value and an externally supplied fetcher assigning an `Outcome`
  to each launched task; the clock observed during intake is a single
  parameter `now`, and the clock a task observes when it starts is a
  separate parameter.

All definitions are executable.
-/

/-- Time of day as Python's `datetime.time` carries it: hour, minute, second
and microsecond fields. -/
structure Time where
  hour : Nat
  minute : Nat
  second : Nat
  microsecond : Nat
deriving DecidableEq

/-- Python compares `datetime.time` values lexicographically by
(hour, minute, second, microsecond); this is the `<` used in
`dt.time() < datetime.now().time()`. -/
def Time.lt (a b : Time) : Bool :=
  Nat.blt a.hour b.hour ||
    (a.hour == b.hour && (Nat.blt a.minute b.minute ||
      (a.minute == b.minute && (Nat.blt a.second b.second ||
        (a.second == b.second && Nat.blt a.microsecond b.microsecond)))))

/-- Calendar date, as Python's `datetime.date`. -/
structure Date where
  year : Nat
  month : Nat
  day : Nat
deriving DecidableEq

/-- An absolute instant, as Python's `datetime.datetime`: a date plus a time
of day. -/
structure DateTime where
  date : Date
  time : Time
deriving DecidableEq

def isLeapYear (y : Nat) : Bool :=
  (y % 4 == 0 && y % 100 != 0) || (y % 400 == 0)

def daysInMonth (y m : Nat) : Nat :=
  if m = 2 then (if isLeapYear y then 29 else 28)
  else if m = 4 ∨ m = 6 ∨ m = 9 ∨ m = 11 then 30
  else 31

def daysBeforeMonth (y m : Nat) : Nat :=
  (List.range (m - 1)).foldl (fun acc i => acc + daysInMonth y (i + 1)) 0

/-- Proleptic-Gregorian ordinal of a date (day 1 = 0001-01-01), the day
number Python's `datetime` arithmetic is built on. -/
def Date.toOrdinal (d : Date) : Nat :=
  365 * (d.year - 1) + (d.year - 1) / 4 - (d.year - 1) / 100 + (d.year - 1) / 400
    + daysBeforeMonth d.year d.month + d.day

/-- Microseconds since midnight. -/
def Time.toMicroOfDay (t : Time) : Nat :=
  ((t.hour * 60 + t.minute) * 60 + t.second) * 1000000 + t.microsecond

/-- Microseconds of an instant on the proleptic-Gregorian day line; the
difference of two of these is what `(dt - now).total_seconds()` measures
(in seconds, here kept in microseconds). -/
def DateTime.toMicro (dt : DateTime) : Nat :=
  dt.date.toOrdinal * 86400000000 + dt.time.toMicroOfDay

/-- Split a character list at every occurrence of `sep`, keeping empty
segments, as Python's `str.split(sep)` does. -/
def splitOnChar (sep : Char) : List Char → List (List Char)
  | [] => [[]]
  | c :: rest =>
    let r := splitOnChar sep rest
    if c = sep then [] :: r
    else
      match r with
      | [] => [[c]]
      | seg :: segs => (c :: seg) :: segs

/-- Start codepoints of the runs of ten decimal digits: Unicode general
category Nd, each run holding the digits 0 to 9 in order.  CPython's `re`
compiles `str` patterns without `re.ASCII`, so the `\d` of `_strptime`'s
field patterns matches all of these digits, and `int()` converts each by
its decimal value.  The table is Unicode 15.0 (the database of CPython
3.12/3.13); interpreters on an older database lack the last-added scripts
(Unicode 14.0 lacks exactly 0x11F50 Kawi and 0x1E4F0 Nag Mundari). -/
def ndStarts : List Nat :=
  [0x0030, 0x0660, 0x06F0, 0x07C0, 0x0966, 0x09E6, 0x0A66, 0x0AE6, 0x0B66,
   0x0BE6, 0x0C66, 0x0CE6, 0x0D66, 0x0DE6, 0x0E50, 0x0ED0, 0x0F20, 0x1040,
   0x1090, 0x17E0, 0x1810, 0x1946, 0x19D0, 0x1A80, 0x1A90, 0x1B50, 0x1BB0,
   0x1C40, 0x1C50, 0xA620, 0xA8D0, 0xA900, 0xA9D0, 0xA9F0, 0xAA50, 0xABF0,
   0xFF10, 0x104A0, 0x10D30, 0x11066, 0x110F0, 0x11136, 0x111D0, 0x112F0,
   0x11450, 0x114D0, 0x11650, 0x116C0, 0x11730, 0x118E0, 0x11950, 0x11C50,
   0x11D50, 0x11DA0, 0x11F50, 0x16A60, 0x16AC0, 0x16B50, 0x1D7CE, 0x1D7D8,
   0x1D7E2, 0x1D7EC, 0x1D7F6, 0x1E140, 0x1E2F0, 0x1E4F0, 0x1E950, 0x1FBF0]

/-- Unicode decimal digit test: the class `\d` of a CPython `str` pattern
compiled without `re.ASCII`. -/
def isDig (c : Char) : Bool :=
  ndStarts.any (fun b => b ≤ c.toNat && c.toNat ≤ b + 9)

/-- Decimal value of a digit: its offset in its run of ten, which is how
`int()` converts strings of Unicode decimal digits. -/
def digitVal (c : Char) : Nat :=
  match ndStarts.find? (fun b => b ≤ c.toNat && c.toNat ≤ b + 9) with
  | some b => c.toNat - b
  | none => 0

/-- ASCII digit test, the class `[0-9]`. -/
def isAsciiDig (c : Char) : Bool :=
  48 ≤ c.toNat && c.toNat ≤ 57

/-- Match `_strptime`'s `%H` pattern `2[0-3]|[0-1]\d|\d` against one
colon-separated segment.  The literals `2`, `[0-3]` and `[0-1]` are ASCII —
only `\d` also matches non-ASCII decimal digits — so a two-character hour is
accepted exactly when it is ASCII `2` followed by ASCII `0`-`3`, or ASCII
`0`/`1` followed by any decimal digit; a one-character hour may be any
decimal digit.  The value is `int()` of the matched text. -/
def matchH : List Char → Option Nat
  | [c] => if isDig c then some (digitVal c) else none
  | [c1, c2] =>
    if c1.toNat = 50 ∧ 48 ≤ c2.toNat ∧ c2.toNat ≤ 51 then
      some (10 * digitVal c1 + digitVal c2)
    else if (48 ≤ c1.toNat ∧ c1.toNat ≤ 49) ∧ isDig c2 then
      some (10 * digitVal c1 + digitVal c2)
    else none
  | _ => none

/-- Match `_strptime`'s `%M` pattern `[0-5]\d|\d`: an ASCII `0`-`5` followed
by any decimal digit, or any single decimal digit. -/
def matchM : List Char → Option Nat
  | [c] => if isDig c then some (digitVal c) else none
  | [c1, c2] =>
    if (48 ≤ c1.toNat ∧ c1.toNat ≤ 53) ∧ isDig c2 then
      some (10 * digitVal c1 + digitVal c2)
    else none
  | _ => none

/-- Match `_strptime`'s `%S` pattern `6[0-1]|[0-5]\d|\d`: ASCII `6` then
ASCII `0`/`1` (the leap seconds), or an ASCII `0`-`5` followed by any
decimal digit, or any single decimal digit. -/
def matchS : List Char → Option Nat
  | [c] => if isDig c then some (digitVal c) else none
  | [c1, c2] =>
    if c1.toNat = 54 ∧ 48 ≤ c2.toNat ∧ c2.toNat ≤ 49 then
      some (10 * digitVal c1 + digitVal c2)
    else if (48 ≤ c1.toNat ∧ c1.toNat ≤ 53) ∧ isDig c2 then
      some (10 * digitVal c1 + digitVal c2)
    else none
  | _ => none

/-- Model of `parse_timestring` from reqsched.py: `datetime.strptime` with
format `%H:%M:%S`.  The format regex is the three field patterns joined by
literal colons and anchored (unconverted leading or trailing data raises
`ValueError`); since the field patterns match only digits and never a
colon, a successful match decomposes the string into exactly three
colon-separated segments, each consumed whole by its field pattern.
`strptime` then calls the `datetime` constructor, which rejects the leap
seconds 60 and 61 that the `S` pattern admits, again with `ValueError`;
hence the extra `sv ≤ 59` guard.  `none` stands for the raised
`ValueError`. -/
def parse_timestring (s : String) : Option Time :=
  match splitOnChar ':' s.data with
  | [h, m, sec] =>
    match matchH h, matchM m, matchS sec with
    | some hv, some mv, some sv =>
      if sv ≤ 59 then some ⟨hv, mv, sv, 0⟩ else none
    | _, _, _ => none
  | _ => none

/-- The `dt.replace(year=today.year, month=today.month, day=today.day)` step
of `parse_timestring`: the parsed time of day anchored to today's date. -/
def parse_today (today : Date) (s : String) : Option DateTime :=
  (parse_timestring s).map (fun t => ⟨today, t⟩)

example : parse_timestring "23:59:59" = some ⟨23, 59, 59, 0⟩ := by decide
example : parse_timestring "1:2:3" = some ⟨1, 2, 3, 0⟩ := by decide
example : parse_timestring "24:00:00" = none := by decide
example : parse_timestring "12:60:00" = none := by decide
example : parse_timestring "12:00:60" = none := by decide
example : parse_timestring "bad-time" = none := by decide
example : parse_timestring "12:00:00x" = none := by decide
example : parse_timestring "" = none := by decide
example : parse_timestring "٣:٣:٣" = some ⟨3, 3, 3, 0⟩ := by decide
example : parse_timestring "1٣:2:3" = some ⟨13, 2, 3, 0⟩ := by decide
example : parse_timestring "0٩:5٥:00" = some ⟨9, 55, 0, 0⟩ := by decide
example : parse_timestring "٢٣:00:00" = none := by decide
example : parse_timestring "2٣:00:00" = none := by decide
example : parse_timestring "٠9:00:00" = none := by decide
example : Time.lt ⟨23, 59, 59, 0⟩ ⟨12, 0, 0, 0⟩ = false := by decide
example : Time.lt ⟨11, 59, 59, 0⟩ ⟨12, 0, 0, 0⟩ = true := by decide

/-- One outbound HTTP request as `_do_request` builds it:
`urllib.request.Request(url, headers=\x7b'User-Agent': 'Mozilla/5.0'\x7d)`
issued with the given timeout. -/
structure Request where
  url : String
  userAgent : String
  timeout : Nat
deriving DecidableEq

/-- Outcome of one launched task, as observed by `start`'s drain loop:
the awaited coroutine either returns a response (success), raises
`HTTPError` or raises some other exception. -/
inductive Outcome where
  | success (status : Nat) (finalUrl : String)
  | httpError (code : Nat) (reason : String)
  | otherError (detail : String)
deriving DecidableEq

/-- Both `except` arms of the drain loop increment `errors`; only a normal
return does not. -/
def Outcome.isFailure : Outcome → Bool
  | .success _ _ => false
  | .httpError _ _ => true
  | .otherError _ => true

/-- The value of `CONFIG.URL` when the module is imported. -/
def CONFIG_URL_init : String := "http://ifconfig.co/"

/-- Python evaluates a `def`'s default parameter values once, when the `def`
statement runs at import time.  `wait_and_request`'s signature
`url: str = CONFIG.URL` therefore binds this constant, the value `CONFIG.URL`
has at import — later assignments to `CONFIG.URL` (as `_parse_cli` performs)
do not change it. -/
def wait_and_request_default_url : String := CONFIG_URL_init

/-- `asyncio.sleep(d)` with a non-positive delay resumes immediately without
raising; the value is the time actually spent suspended. -/
def asyncio_sleep (micros : Int) : Int := max micros 0

/-- Model of `_do_request`: build the GET request with the spoofed
`Mozilla/5.0` user agent and hand it to the network (the `fetch`
parameter stands for `urllib.request.urlopen`), returning the request made
and its outcome. -/
def do_request (url : String) (timeout : Nat) (fetch : Request → Outcome) :
    Request × Outcome :=
  let r : Request := { url := url, userAgent := "Mozilla/5.0", timeout := timeout }
  (r, fetch r)

/-- Trace of one run of `wait_and_request`: how long the task actually slept,
the requests it issued and the outcome it yielded. -/
structure TaskRun where
  sleptMicros : Int
  requests : List Request
  outcome : Outcome
deriving DecidableEq

/-- Model of `wait_and_request`: compute `seconds = (dt - now).total_seconds()`
(kept in microseconds here), `await asyncio.sleep(seconds)`, then perform the
single request via `_do_request`.  `now` is the clock value read at task
start. -/
def wait_and_request (dt now : DateTime) (url : String) (timeout : Nat)
    (fetch : Request → Outcome) : TaskRun :=
  let micros : Int := (dt.toMicro : Int) - (now.toMicro : Int)
  let slept := asyncio_sleep micros
  let ro := do_request url timeout fetch
  { sleptMicros := slept, requests := [ro.1], outcome := ro.2 }

/-- The mutable state of `start`'s intake loop: the `passes` and `skips`
counters and the list of launched task targets, in launch order. -/
structure BatchState where
  passes : Nat
  skips : Nat
  tasks : List DateTime
deriving DecidableEq

/-- One iteration of `start`'s intake loop over a timestamp string:
a `ValueError` from `parse_timestring` is caught and counted as a skip; a
parsed time of day earlier than the current one is counted as a skip; any
other entry is launched as a task targeting today's date. -/
def intakeStep (now : Time) (today : Date) (st : BatchState)
    (timestring : String) : BatchState :=
  match parse_timestring timestring with
  | none => { st with skips := st.skips + 1 }
  | some t =>
    if Time.lt t now then { st with skips := st.skips + 1 }
    else { passes := st.passes + 1, skips := st.skips,
           tasks := st.tasks ++ [⟨today, t⟩] }

/-- The intake loop of `start` over the whole batch.  The clock observed
during intake is modelled as the single value `now`. -/
def intake (now : Time) (today : Date) (timestamps : List String) : BatchState :=
  timestamps.foldl (intakeStep now today) ⟨0, 0, []⟩

/-- The outcomes of the launched tasks: the fetcher (indexed by launch
position and target, so duplicate targets may behave differently) applied to
each launched task. -/
def taskOutcomes (timestamps : List String) (today : Date) (now : Time)
    (fetch : Nat → DateTime → Outcome) : List Outcome :=
  ((intake now today timestamps).tasks).enum.map (fun p => fetch p.1 p.2)

/-- One iteration of `start`'s drain loop: each completion that raised
(either `except` arm) increments `errors`, a normal return does not. -/
def drainStep (errors : Nat) (o : Outcome) : Nat :=
  if o.isFailure then errors + 1 else errors

/-- The drain loop of `start` over a list of completions. -/
def drain (outcomes : List Outcome) : Nat :=
  outcomes.foldl drainStep 0

/-- Model of `start`: intake, then drain, then `return passes, skips, errors`. -/
def start (timestamps : List String) (today : Date) (now : Time)
    (fetch : Nat → DateTime → Outcome) : Nat × Nat × Nat :=
  let st := intake now today timestamps
  (st.passes, st.skips, drain (taskOutcomes timestamps today now fetch))

/-- The runs of the tasks `start` launches: `start` calls
`asyncio.create_task(wait_and_request(dt))`, passing no `url` and no
`timeout`, so every task uses the default-bound URL and timeout 1.
`taskNow` is the clock a task reads when it begins to run. -/
def startTaskRuns (timestamps : List String) (today : Date) (now : Time)
    (taskNow : DateTime) (fetch : Request → Outcome) : List TaskRun :=
  ((intake now today timestamps).tasks).map
    (fun tgt => wait_and_request tgt taskNow wait_and_request_default_url 1 fetch)

/-- All requests issued on behalf of a batch. -/
def startRequests (timestamps : List String) (today : Date) (now : Time)
    (taskNow : DateTime) (fetch : Request → Outcome) : List Request :=
  ((startTaskRuns timestamps today now taskNow fetch).map TaskRun.requests).flatten

/-- Model of `_parse_cli`: split the positional argument on commas, and when
the `-u`/`--url` option is present and truthy (a non-empty string) assign it
to `CONFIG.URL`.  Returns the timestamp list and the new `CONFIG.URL`. -/
def parse_cli (timestampsArg : String) (urlOpt : Option String)
    (configUrl : String) : List String × String :=
  let newUrl :=
    match urlOpt with
    | some u => if u.isEmpty then configUrl else u
    | none => configUrl
  ((splitOnChar ',' timestampsArg.data).map (fun l => String.mk l), newUrl)

/-- Per-entry launch decision of the intake loop: an entry is launched when
it parses and its time of day is not earlier than the current one. -/
def launches (now : Time) (s : String) : Bool :=
  match parse_timestring s with
  | some t => ! Time.lt t now
  | none => false

/-- Per-entry task target of the intake loop. -/
def launchTarget (now : Time) (today : Date) (s : String) : Option DateTime :=
  match parse_timestring s with
  | some t => if Time.lt t now then none else some ⟨today, t⟩
  | none => none

/-- An entry `parse_timestring` rejects. -/
def invalidEntry (s : String) : Bool :=
  (parse_timestring s).isNone

/-- A valid entry whose time of day is earlier than the current one. -/
def pastEntry (now : Time) (s : String) : Bool :=
  match parse_timestring s with
  | some t => Time.lt t now
  | none => false

/-- Modelled from the spec: a string in `HH:MM:SS` format, read strictly as
two digits, a colon, two digits, a colon and two digits. -/
def matchesHHMMSS (s : String) : Bool :=
  match splitOnChar ':' s.data with
  | [h, m, sec] => twoDigits h && twoDigits m && twoDigits sec
  | _ => false
where
  twoDigits : List Char → Bool
    | [c1, c2] => isAsciiDig c1 && isAsciiDig c2
    | _ => false

/-- The strings `parse_timestring` actually accepts, stated flatly by digit
values: three colon-separated fields, each either a single decimal digit
(any Unicode decimal digit) or two decimal digits with an ASCII first digit
and an in-range value (hour at most 23, minute and second at most 59), an
hour of 20 to 23 needing an ASCII second digit as well. -/
def validTimeString (s : String) : Bool :=
  match splitOnChar ':' s.data with
  | [h, m, sec] => okHour h && okMinSec m && okMinSec sec
  | _ => false
where
  okHour : List Char → Bool
    | [c] => isDig c
    | [c1, c2] =>
      isAsciiDig c1 && isDig c2
        && decide (10 * digitVal c1 + digitVal c2 ≤ 23)
        && (decide (digitVal c1 ≠ 2) || isAsciiDig c2)
    | _ => false
  okMinSec : List Char → Bool
    | [c] => isDig c
    | [c1, c2] =>
      isAsciiDig c1 && isDig c2
        && decide (10 * digitVal c1 + digitVal c2 ≤ 59)
    | _ => false

/-- Concrete date used by the witnesses and counterexamples. -/
def d0 : Date := ⟨2026, 10, 12⟩

/-- Noon, the intake clock of the spec's "already past" scenario. -/
def t12 : Time := ⟨12, 0, 0, 0⟩

/-- Concrete instant used as a task-start clock. -/
def dt0 : DateTime := ⟨d0, t12⟩

/-- A fetcher whose requests all succeed. -/
def fetchOk : Request → Outcome := fun r => .success 200 r.url

/-- An indexed fetcher whose tasks all succeed. -/
def fetchOkIdx : Nat → DateTime → Outcome := fun _ _ => .success 200 "http://ifconfig.co/"

/-- An indexed fetcher whose tasks all fail at the HTTP level. -/
def fetchErrIdx : Nat → DateTime → Outcome := fun _ _ => .httpError 429 "Too Many Requests"

/-- Midnight, a concrete intake clock for the witnesses. -/
def t00 : Time := ⟨0, 0, 0, 0⟩

/-- A concrete batch with one launched and one skipped entry. -/
def ts0 : List String := ["12:00:00", "bad"]

example : (start ["23:59:59"] d0 t12 fetchOkIdx) = (1, 0, 0) := by decide
example : (start ["23:59:59", "bad", "11:00:00"] d0 t12 fetchErrIdx) = (1, 2, 1) := by decide
example : (startRequests ["23:59:59"] d0 t12 dt0 fetchOk).map Request.url
    = ["http://ifconfig.co/"] := by decide
example : (parse_cli "23:59:59,08:00:00" (some "http://example.com/") CONFIG_URL_init)
    = (["23:59:59", "08:00:00"], "http://example.com/") := by decide

/-! ### Closed forms for the intake and drain loops -/

theorem intake_foldl (now : Time) (today : Date) (ts : List String) :
    ∀ st : BatchState, List.foldl (intakeStep now today) st ts =
      ⟨st.passes + ts.countP (launches now),
       st.skips + ts.countP (fun s => ! launches now s),
       st.tasks ++ ts.filterMap (launchTarget now today)⟩ := by
  induction ts with
  | nil => intro st; simp
  | cons s rest ih =>
    intro st
    rw [List.foldl_cons, ih]
    rw [BatchState.mk.injEq]
    cases hp : parse_timestring s with
    | none =>
      refine ⟨?_, ?_, ?_⟩
      · simp [intakeStep, hp, launches, List.countP_cons]
      · simp [intakeStep, hp, launches, List.countP_cons]
        omega
      · simp [intakeStep, hp, launchTarget, List.filterMap_cons]
    | some t =>
      cases hlt : Time.lt t now with
      | true =>
        refine ⟨?_, ?_, ?_⟩
        · simp [intakeStep, hp, hlt, launches, List.countP_cons]
        · simp [intakeStep, hp, hlt, launches, List.countP_cons]
          omega
        · simp [intakeStep, hp, hlt, launchTarget, List.filterMap_cons]
      | false =>
        refine ⟨?_, ?_, ?_⟩
        · simp [intakeStep, hp, hlt, launches, List.countP_cons]
          omega
        · simp [intakeStep, hp, hlt, launches, List.countP_cons]
        · simp [intakeStep, hp, hlt, launchTarget, List.filterMap_cons]

theorem intake_passes (now : Time) (today : Date) (ts : List String) :
    (intake now today ts).passes = ts.countP (launches now) := by
  rw [intake, intake_foldl]; simp

theorem intake_skips (now : Time) (today : Date) (ts : List String) :
    (intake now today ts).skips = ts.countP (fun s => ! launches now s) := by
  rw [intake, intake_foldl]; simp

theorem intake_tasks (now : Time) (today : Date) (ts : List String) :
    (intake now today ts).tasks = ts.filterMap (launchTarget now today) := by
  rw [intake, intake_foldl]; simp

theorem launchTarget_isSome (now : Time) (today : Date) (s : String) :
    (launchTarget now today s).isSome = launches now s := by
  unfold launchTarget launches
  cases hp : parse_timestring s with
  | none => rfl
  | some t => cases hlt : Time.lt t now <;> simp [hlt]

theorem length_filterMap_countP {α β : Type} (f : α → Option β) (p : α → Bool)
    (h : ∀ a, (f a).isSome = p a) (l : List α) :
    (l.filterMap f).length = l.countP p := by
  induction l with
  | nil => rfl
  | cons a rest ih =>
    cases hf : f a with
    | none =>
      have hp : p a = false := by rw [← h a, hf]; rfl
      simp [List.filterMap_cons, hf, List.countP_cons, hp, ih]
    | some b =>
      have hp : p a = true := by rw [← h a, hf]; rfl
      simp [List.filterMap_cons, hf, List.countP_cons, hp, ih]

theorem intake_tasks_length (now : Time) (today : Date) (ts : List String) :
    (intake now today ts).tasks.length = (intake now today ts).passes := by
  rw [intake_tasks, intake_passes,
    length_filterMap_countP _ _ (launchTarget_isSome now today)]

theorem countP_not_launches (now : Time) (ts : List String) :
    ts.countP (fun s => ! launches now s)
      = ts.countP invalidEntry + ts.countP (pastEntry now) := by
  induction ts with
  | nil => rfl
  | cons s rest ih =>
    simp only [List.countP_cons, ih]
    unfold launches invalidEntry pastEntry
    cases hp : parse_timestring s with
    | none => simp [hp]; omega
    | some t => cases hlt : Time.lt t now <;> (simp [hp, hlt]; try omega)

theorem drain_foldl (l : List Outcome) :
    ∀ n : Nat, List.foldl drainStep n l = n + l.countP Outcome.isFailure := by
  induction l with
  | nil => intro n; simp
  | cons o rest ih =>
    intro n
    rw [List.foldl_cons, ih, drainStep, List.countP_cons]
    cases ho : o.isFailure <;> (simp [ho]; try omega)

theorem drain_eq_countP (l : List Outcome) :
    drain l = l.countP Outcome.isFailure := by
  rw [drain, drain_foldl]; omega

theorem taskOutcomes_length (timestamps : List String) (today : Date)
    (now : Time) (fetch : Nat → DateTime → Outcome) :
    (taskOutcomes timestamps today now fetch).length
      = (intake now today timestamps).passes := by
  rw [taskOutcomes, List.length_map, List.enum_length, intake_tasks_length]

theorem start_eq (ts : List String) (today : Date) (now : Time)
    (fetch : Nat → DateTime → Outcome) :
    start ts today now fetch = ((intake now today ts).passes,
      (intake now today ts).skips, drain (taskOutcomes ts today now fetch)) := rfl

theorem countP_add_countP_not {α : Type} (p : α → Bool) (l : List α) :
    l.countP p + l.countP (fun a => ! p a) = l.length := by
  induction l with
  | nil => rfl
  | cons a rest ih => cases h : p a <;> (simp [List.countP_cons, h]; omega)

theorem Time.lt_irrefl (t : Time) : Time.lt t t = false := by
  have hb : ∀ n : Nat, Nat.blt n n = false := by
    intro n
    rw [Bool.eq_false_iff]
    intro h
    rw [Nat.blt_eq] at h
    exact Nat.lt_irrefl n h
  simp [Time.lt, hb]

/-! ### The claims -/

/-- C1 (refuted by the code, which contradicts its own CLI help and the
`CONFIG` docstring): the `--url` override is stored into `CONFIG.URL`, but
every task `start` launches calls `wait_and_request(dt)` with the default
`url`, which Python bound to the value `CONFIG.URL` had at import time; so
with override `http://example.com/` the one launched request still targets
`http://ifconfig.co/`, not the override. -/
theorem cli_url_override_not_used_by_requests :
    (parse_cli "23:59:59" (some "http://example.com/") CONFIG_URL_init).2
      = "http://example.com/"
    ∧ ((startRequests
          (parse_cli "23:59:59" (some "http://example.com/") CONFIG_URL_init).1
          d0 t12 dt0 fetchOk).map Request.url) = ["http://ifconfig.co/"]
    ∧ "http://ifconfig.co/" ≠ "http://example.com/" := by
  refine ⟨rfl, by decide, by decide⟩

/-- C2 (counterexample): the batch `["23:59:59"]` evaluated when the current
time of day is `12:00:00` is not treated as already past — `23:59:59` is not
earlier than `12:00:00` — so the code returns `launched = 1, skipped = 0`
and issues one request, contradicting the claimed `skipped = 1,
launched = 0` with no network call. -/
theorem start_235959_at_noon_counterexample :
    start ["23:59:59"] d0 t12 fetchOkIdx = (1, 0, 0)
    ∧ ¬ start ["23:59:59"] d0 t12 fetchOkIdx = (0, 1, 0)
    ∧ (startRequests ["23:59:59"] d0 t12 dt0 fetchOk).length = 1 := by
  refine ⟨by decide, by decide, by decide⟩

/-- C2 (amended): for the single-entry batch `["23:59:59"]` evaluated when
the current time of day is `12:00:00` on the same day, the Scheduler treats
the entry as still in the future: it returns `launched = 1, skipped = 0` and
launches exactly one request-issuing task. -/
theorem start_235959_at_noon_launches (today : Date)
    (fetch : Nat → DateTime → Outcome) (taskNow : DateTime)
    (fetchReq : Request → Outcome) :
    (start ["23:59:59"] today t12 fetch).1 = 1
    ∧ (start ["23:59:59"] today t12 fetch).2.1 = 0
    ∧ (startRequests ["23:59:59"] today t12 taskNow fetchReq).length = 1 := by
  refine ⟨rfl, rfl, rfl⟩

/-- C3: the first component of `start`'s triple counts tasks launched, not
tasks that succeeded: it equals the number of launched tasks, it does not
depend on the outcomes at all (so a later failure never decrements it), and
every launched task whose outcome is a failure is additionally counted in
the errored tally, which is exactly the number of failing launched tasks. -/
theorem launched_tally_counts_launches (ts : List String) (today : Date)
    (now : Time) (fetch fetch2 : Nat → DateTime → Outcome) :
    (start ts today now fetch).1 = (intake now today ts).tasks.length
    ∧ (start ts today now fetch).1 = (start ts today now fetch2).1
    ∧ (start ts today now fetch).2.2
        = (taskOutcomes ts today now fetch).countP Outcome.isFailure := by
  rw [start_eq, start_eq]
  exact ⟨(intake_tasks_length now today ts).symm, rfl, drain_eq_countP _⟩

/-- C4: every entry of a batch increments exactly one of the launched or
skipped counters, so `launched + skipped` equals the batch size; the skipped
tally is the number of unparsable entries plus the number of already-past
entries, so a malformed entry is absorbed and the rest of the batch is still
processed. -/
theorem launched_plus_skipped_eq_batch_size (ts : List String) (today : Date)
    (now : Time) (fetch : Nat → DateTime → Outcome) :
    (start ts today now fetch).1 + (start ts today now fetch).2.1 = ts.length
    ∧ (start ts today now fetch).2.1
        = ts.countP invalidEntry + ts.countP (pastEntry now) := by
  rw [start_eq]
  refine ⟨?_, ?_⟩
  · rw [intake_passes, intake_skips]
    exact countP_add_countP_not (launches now) ts
  · rw [intake_skips, countP_not_launches]

/-- C5: whatever completion order the launched tasks drain in, every failure
outcome is absorbed at the per-task boundary and counted once in the errored
tally, and `start` still returns its full `(launched, skipped, errored)`
triple. -/
theorem failures_counted_and_contained (ts : List String) (today : Date)
    (now : Time) (fetch : Nat → DateTime → Outcome) (os : List Outcome)
    (h : os.Perm (taskOutcomes ts today now fetch)) :
    drain os = (taskOutcomes ts today now fetch).countP Outcome.isFailure
    ∧ start ts today now fetch
        = ((intake now today ts).passes, (intake now today ts).skips, drain os) := by
  have hc : drain os = drain (taskOutcomes ts today now fetch) := by
    rw [drain_eq_countP, drain_eq_countP]
    exact h.countP_eq _
  refine ⟨?_, ?_⟩
  · rw [hc, drain_eq_countP]
  · rw [start_eq, hc]

/-- Witness for C5 at the concrete batch `["12:00:00", "bad"]` drained in
launch order with an HTTP failure: the errored count is 1 and the run
returns `(1, 1, 1)`. -/
theorem failures_counted_and_contained_witness :
    drain (taskOutcomes ts0 d0 t00 fetchErrIdx) = 1
    ∧ start ts0 d0 t00 fetchErrIdx = (1, 1, 1) := by
  have h := failures_counted_and_contained ts0 d0 t00 fetchErrIdx
    (taskOutcomes ts0 d0 t00 fetchErrIdx) (List.Perm.refl _)
  refine ⟨?_, ?_⟩
  · rw [h.1]; decide
  · rw [h.2]; decide

/-- C7: a valid entry whose parsed time of day is earlier than the intake
clock adds exactly one to the skipped tally of its batch, adds nothing to
the launched tally, launches no task, and causes no request: the requests
of the batch are those of the batch without it. -/
theorem past_entry_skipped_no_request (today : Date) (now : Time)
    (pre post : List String) (s : String) (t : Time)
    (hp : parse_timestring s = some t) (hlt : Time.lt t now = true) :
    (intake now today (pre ++ s :: post)).skips
        = (intake now today (pre ++ post)).skips + 1
    ∧ (intake now today (pre ++ s :: post)).passes
        = (intake now today (pre ++ post)).passes
    ∧ (intake now today (pre ++ s :: post)).tasks
        = (intake now today (pre ++ post)).tasks
    ∧ ∀ (taskNow : DateTime) (fetchReq : Request → Outcome),
        startRequests (pre ++ s :: post) today now taskNow fetchReq
          = startRequests (pre ++ post) today now taskNow fetchReq := by
  have hl : launches now s = false := by simp [launches, hp, hlt]
  have hnone : launchTarget now today s = none := by
    simp [launchTarget, hp, hlt]
  have htasks : (intake now today (pre ++ s :: post)).tasks
      = (intake now today (pre ++ post)).tasks := by
    rw [intake_tasks, intake_tasks, List.filterMap_append, List.filterMap_append,
      List.filterMap_cons, hnone]
  refine ⟨?_, ?_, htasks, ?_⟩
  · rw [intake_skips, intake_skips, List.countP_append, List.countP_append,
      List.countP_cons]
    simp [hl]
    omega
  · rw [intake_passes, intake_passes, List.countP_append, List.countP_append,
      List.countP_cons]
    simp [hl]
  · intro taskNow fetchReq
    rw [startRequests, startRequests, startTaskRuns, startTaskRuns, htasks]

/-- Witness for C7: the single past entry `"00:00:01"` at intake clock
`00:00:02` is skipped and the batch issues the same requests as the empty
batch, namely none. -/
theorem past_entry_skipped_no_request_witness :
    (intake ⟨0, 0, 2, 0⟩ d0 ["00:00:01"]).skips
        = (intake ⟨0, 0, 2, 0⟩ d0 ([] : List String)).skips + 1
    ∧ startRequests ["00:00:01"] d0 ⟨0, 0, 2, 0⟩ dt0 fetchOk
        = startRequests ([] : List String) d0 ⟨0, 0, 2, 0⟩ dt0 fetchOk := by
  have h := past_entry_skipped_no_request d0 ⟨0, 0, 2, 0⟩ [] [] "00:00:01"
    ⟨0, 0, 1, 0⟩ (by decide) (by decide)
  exact ⟨h.1, h.2.2.2 dt0 fetchOk⟩

/-- C8: when the wait duration `target - now` computed at task start is zero
or negative, `wait_and_request` does not fail: it spends no time suspended,
issues exactly one request (the GET with the spoofed user agent), and yields
the fetcher's outcome for it. -/
theorem wait_nonpositive_duration_fires_once (dt now : DateTime)
    (url : String) (timeout : Nat) (fetch : Request → Outcome)
    (h : (dt.toMicro : Int) - (now.toMicro : Int) ≤ 0) :
    (wait_and_request dt now url timeout fetch).sleptMicros = 0
    ∧ (wait_and_request dt now url timeout fetch).requests
        = [⟨url, "Mozilla/5.0", timeout⟩]
    ∧ (wait_and_request dt now url timeout fetch).outcome
        = fetch ⟨url, "Mozilla/5.0", timeout⟩ := by
  refine ⟨?_, rfl, rfl⟩
  show asyncio_sleep ((dt.toMicro : Int) - (now.toMicro : Int)) = 0
  rw [asyncio_sleep]
  exact max_eq_right h

/-- Witness for C8 at a zero duration: the it fires exactly once with no
suspension. -/
theorem wait_nonpositive_duration_fires_once_witness :
    (wait_and_request dt0 dt0 CONFIG_URL_init 1 fetchOk).sleptMicros = 0
    ∧ (wait_and_request dt0 dt0 CONFIG_URL_init 1 fetchOk).requests
        = [⟨CONFIG_URL_init, "Mozilla/5.0", 1⟩] := by
  have h := wait_nonpositive_duration_fires_once dt0 dt0 CONFIG_URL_init 1
    fetchOk (by omega)
  exact ⟨h.1, h.2.1⟩

/-- C9: an entry whose parsed time of day equals the intake clock falls on
the launch side of the strict earlier-than comparison: it is launched, not
skipped. -/
theorem equal_time_entry_launches (today : Date) (now : Time)
    (pre post : List String) (s : String) (t : Time)
    (hp : parse_timestring s = some t) (he : t = now) :
    Time.lt t now = false
    ∧ (intake now today (pre ++ s :: post)).passes
        = (intake now today (pre ++ post)).passes + 1
    ∧ (intake now today (pre ++ s :: post)).skips
        = (intake now today (pre ++ post)).skips := by
  subst he
  have hirr : Time.lt t t = false := Time.lt_irrefl t
  have hl : launches t s = true := by simp [launches, hp, hirr]
  refine ⟨hirr, ?_, ?_⟩
  · rw [intake_passes, intake_passes, List.countP_append, List.countP_append,
      List.countP_cons]
    simp [hl]
    omega
  · rw [intake_skips, intake_skips, List.countP_append, List.countP_append,
      List.countP_cons]
    simp [hl]

/-- Witness for C9: the entry `"12:00:00"` at intake clock `12:00:00` is
launched. -/
theorem equal_time_entry_launches_witness :
    Time.lt ⟨12, 0, 0, 0⟩ t12 = false
    ∧ (intake t12 d0 ["12:00:00"]).passes
        = (intake t12 d0 ([] : List String)).passes + 1 := by
  have h := equal_time_entry_launches d0 t12 [] [] "12:00:00" ⟨12, 0, 0, 0⟩
    (by decide) (by decide)
  exact ⟨h.1, h.2.1⟩

/-- C10: in the returned triple, the errored count never exceeds the
launched count, since each error comes from the single outcome of one
launched task. -/
theorem errored_le_launched (ts : List String) (today : Date) (now : Time)
    (fetch : Nat → DateTime → Outcome) :
    (start ts today now fetch).2.2 ≤ (start ts today now fetch).1 := by
  rw [start_eq]
  show drain (taskOutcomes ts today now fetch) ≤ (intake now today ts).passes
  rw [drain_eq_countP, ← taskOutcomes_length ts today now fetch]
  exact List.countP_le_length _

/-! ### The time parser's acceptance condition (C6) -/

theorem digitVal_le_nine (c : Char) (h : isDig c = true) : digitVal c ≤ 9 := by
  rw [isDig, List.any_eq_true] at h
  obtain ⟨b, hmem, hb⟩ := h
  rw [digitVal]
  cases hf : ndStarts.find? (fun b => b ≤ c.toNat && c.toNat ≤ b + 9) with
  | none => exact absurd hb (List.find?_eq_none.mp hf b hmem)
  | some b2 =>
    have hp := List.find?_some hf
    simp only [Bool.and_eq_true, decide_eq_true_eq] at hp
    show c.toNat - b2 ≤ 9
    omega

theorem isDig_ascii (c : Char) (h : isAsciiDig c = true) : isDig c = true := by
  simp only [isAsciiDig, Bool.and_eq_true, decide_eq_true_eq] at h
  rw [isDig, List.any_eq_true]
  refine ⟨48, by simp [ndStarts], ?_⟩
  simp only [Bool.and_eq_true, decide_eq_true_eq]
  omega

theorem digitVal_ascii (c : Char) (h : isAsciiDig c = true) :
    digitVal c = c.toNat - 48 := by
  simp only [isAsciiDig, Bool.and_eq_true, decide_eq_true_eq] at h
  have hp : (decide (48 ≤ c.toNat) && decide (c.toNat ≤ 48 + 9)) = true := by
    simp only [Bool.and_eq_true, decide_eq_true_eq]
    omega
  rw [digitVal, ndStarts]
  rw [List.find?_cons]
  rw [hp]

theorem ascii_bounds (c : Char) (h : isAsciiDig c = true) :
    48 ≤ c.toNat ∧ c.toNat ≤ 57 := by
  simp only [isAsciiDig, Bool.and_eq_true, decide_eq_true_eq] at h
  exact h

theorem ascii_of_bounds (c : Char) (h1 : 48 ≤ c.toNat) (h2 : c.toNat ≤ 57) :
    isAsciiDig c = true := by
  simp only [isAsciiDig, Bool.and_eq_true, decide_eq_true_eq]
  omega

theorem matchH_isSome (f : List Char) :
    (matchH f).isSome = validTimeString.okHour f := by
  match f with
  | [] => rfl
  | [c] => cases h : isDig c <;> simp [matchH, validTimeString.okHour, h]
  | [c1, c2] =>
    rw [Bool.eq_iff_iff]
    constructor
    · intro h
      simp only [matchH] at h
      split at h
      · rename_i h1
        obtain ⟨h50, hlo, hhi⟩ := h1
        have hA1 : isAsciiDig c1 = true := ascii_of_bounds c1 (by omega) (by omega)
        have hA2 : isAsciiDig c2 = true := ascii_of_bounds c2 (by omega) (by omega)
        have hd2 : isDig c2 = true := isDig_ascii c2 hA2
        have hv1 : digitVal c1 = 2 := by rw [digitVal_ascii c1 hA1]; omega
        have hv2 : digitVal c2 = c2.toNat - 48 := digitVal_ascii c2 hA2
        simp [validTimeString.okHour, hA1, hA2, hd2, hv1, hv2]
        omega
      · split at h
        · rename_i h1 h2
          obtain ⟨⟨hlo, hhi⟩, hd2⟩ := h2
          have hA1 : isAsciiDig c1 = true := ascii_of_bounds c1 hlo (by omega)
          have hv1 : digitVal c1 = c1.toNat - 48 := digitVal_ascii c1 hA1
          have h9 := digitVal_le_nine c2 hd2
          have hne : decide (digitVal c1 ≠ 2) = true := by
            rw [hv1]
            simp only [decide_eq_true_eq]
            omega
          simp [validTimeString.okHour, hA1, hd2, hv1, hne]
          omega
        · simp at h
    · intro h
      simp only [validTimeString.okHour, Bool.and_eq_true, Bool.or_eq_true,
        decide_eq_true_eq] at h
      obtain ⟨⟨⟨hA1, hd2⟩, hle⟩, himp⟩ := h
      have hA1n := ascii_bounds c1 hA1
      have hv1 : digitVal c1 = c1.toNat - 48 := digitVal_ascii c1 hA1
      have h9 := digitVal_le_nine c2 hd2
      simp only [matchH]
      split
      · rfl
      · split
        · rfl
        · rename_i hn1 hn2
          exfalso
          rw [hv1] at hle
          rcases himp with hne | hA2
          · rw [hv1] at hne
            exact hn2 ⟨⟨hA1n.1, by omega⟩, hd2⟩
          · have hv2 : digitVal c2 = c2.toNat - 48 := digitVal_ascii c2 hA2
            have hA2n := ascii_bounds c2 hA2
            rw [hv2] at hle
            by_cases h50 : c1.toNat = 50
            · exact hn1 ⟨h50, by omega, by omega⟩
            · exact hn2 ⟨⟨hA1n.1, by omega⟩, hd2⟩
  | c1 :: c2 :: c3 :: r => rfl

theorem matchM_isSome (f : List Char) :
    (matchM f).isSome = validTimeString.okMinSec f := by
  match f with
  | [] => rfl
  | [c] => cases h : isDig c <;> simp [matchM, validTimeString.okMinSec, h]
  | [c1, c2] =>
    rw [Bool.eq_iff_iff]
    constructor
    · intro h
      simp only [matchM] at h
      split at h
      · rename_i h1
        obtain ⟨⟨hlo, hhi⟩, hd2⟩ := h1
        have hA1 : isAsciiDig c1 = true := ascii_of_bounds c1 hlo (by omega)
        have hv1 : digitVal c1 = c1.toNat - 48 := digitVal_ascii c1 hA1
        have h9 := digitVal_le_nine c2 hd2
        simp [validTimeString.okMinSec, hA1, hd2, hv1]
        omega
      · simp at h
    · intro h
      simp only [validTimeString.okMinSec, Bool.and_eq_true,
        decide_eq_true_eq] at h
      obtain ⟨⟨hA1, hd2⟩, hle⟩ := h
      have hA1n := ascii_bounds c1 hA1
      have hv1 : digitVal c1 = c1.toNat - 48 := digitVal_ascii c1 hA1
      have h9 := digitVal_le_nine c2 hd2
      rw [hv1] at hle
      simp only [matchM]
      split
      · rfl
      · rename_i hn
        exact absurd ⟨⟨hA1n.1, by omega⟩, hd2⟩ hn
  | c1 :: c2 :: c3 :: r => rfl

theorem matchS_some_le (f : List Char) (sv : Nat) (h : matchS f = some sv) :
    decide (sv ≤ 59) = validTimeString.okMinSec f := by
  match f with
  | [] => simp [matchS] at h
  | [c] =>
    simp only [matchS] at h
    split at h
    · rename_i hd
      injection h with hv
      have h9 := digitVal_le_nine c hd
      have hle : sv ≤ 59 := by omega
      simp [validTimeString.okMinSec, hd, hle]
    · simp at h
  | [c1, c2] =>
    simp only [matchS] at h
    split at h
    · rename_i h1
      obtain ⟨h54, hlo, hhi⟩ := h1
      injection h with hv
      have hA1 : isAsciiDig c1 = true := ascii_of_bounds c1 (by omega) (by omega)
      have hA2 : isAsciiDig c2 = true := ascii_of_bounds c2 (by omega) (by omega)
      have hd2 : isDig c2 = true := isDig_ascii c2 hA2
      have hv1 : digitVal c1 = c1.toNat - 48 := digitVal_ascii c1 hA1
      have hv2 : digitVal c2 = c2.toNat - 48 := digitVal_ascii c2 hA2
      have hge : ¬ sv ≤ 59 := by rw [← hv, hv1, hv2]; omega
      have hnle : ¬ 10 * digitVal c1 + digitVal c2 ≤ 59 := by
        rw [hv1, hv2]; omega
      simp [validTimeString.okMinSec, hA1, hd2, hge, hnle]
    · split at h
      · rename_i h1 h2
        obtain ⟨⟨hlo, hhi⟩, hd2⟩ := h2
        injection h with hv
        have hA1 : isAsciiDig c1 = true := ascii_of_bounds c1 hlo (by omega)
        have hv1 : digitVal c1 = c1.toNat - 48 := digitVal_ascii c1 hA1
        have h9 := digitVal_le_nine c2 hd2
        have hle : sv ≤ 59 := by rw [← hv, hv1]; omega
        have hle2 : 10 * digitVal c1 + digitVal c2 ≤ 59 := by rw [hv1]; omega
        simp [validTimeString.okMinSec, hA1, hd2, hle, hle2]
      · simp at h
  | c1 :: c2 :: c3 :: r => simp [matchS] at h

theorem matchS_none (f : List Char) (h : matchS f = none) :
    validTimeString.okMinSec f = false := by
  match f with
  | [] => rfl
  | [c] =>
    simp only [matchS] at h
    split at h
    · simp at h
    · rename_i hd
      have hdf : isDig c = false := by
        revert hd
        cases isDig c <;> simp
      simp [validTimeString.okMinSec, hdf]
  | [c1, c2] =>
    simp only [matchS] at h
    split at h
    · simp at h
    · split at h
      · simp at h
      · rename_i hn1 hn2
        rw [Bool.eq_false_iff]
        intro hok
        simp only [validTimeString.okMinSec, Bool.and_eq_true,
          decide_eq_true_eq] at hok
        obtain ⟨⟨hA1, hd2⟩, hle⟩ := hok
        have hA1n := ascii_bounds c1 hA1
        have hv1 : digitVal c1 = c1.toNat - 48 := digitVal_ascii c1 hA1
        have h9 := digitVal_le_nine c2 hd2
        rw [hv1] at hle
        exact hn2 ⟨⟨hA1n.1, by omega⟩, hd2⟩
  | c1 :: c2 :: c3 :: r => rfl

theorem parse_timestring_isSome (s : String) :
    (parse_timestring s).isSome = validTimeString s := by
  unfold parse_timestring validTimeString
  cases hsp : splitOnChar ':' s.data with
  | nil => rfl
  | cons a l =>
    cases l with
    | nil => rfl
    | cons b l2 =>
      cases l2 with
      | nil => rfl
      | cons c l3 =>
        cases l3 with
        | cons d l4 => rfl
        | nil =>
          cases hh : matchH a with
          | none =>
            have ha : validTimeString.okHour a = false := by
              rw [← matchH_isSome, hh]; rfl
            simp [hh, ha]
          | some hv =>
            have ha : validTimeString.okHour a = true := by
              rw [← matchH_isSome, hh]; rfl
            cases hm : matchM b with
            | none =>
              have hb2 : validTimeString.okMinSec b = false := by
                rw [← matchM_isSome, hm]; rfl
              simp [hh, hm, ha, hb2]
            | some mv =>
              have hb2 : validTimeString.okMinSec b = true := by
                rw [← matchM_isSome, hm]; rfl
              cases hs : matchS c with
              | none =>
                have hc2 := matchS_none c hs
                simp [hh, hm, hs, ha, hb2, hc2]
              | some sv =>
                have hc2 := matchS_some_le c sv hs
                by_cases h59 : sv ≤ 59
                · simp [hh, hm, hs, ha, hb2, ← hc2, h59]
                · simp [hh, hm, hs, ha, hb2, ← hc2, h59]


/-- C6 (counterexample): the string `"1:2:3"` does not match the `HH:MM:SS`
format (two digits per field), so by the claim the parser should fail on it;
but `strptime`'s field patterns accept one-digit fields, and the parse
succeeds, yielding 01:02:03. -/
theorem parse_single_digit_counterexample :
    parse_timestring "1:2:3" = some ⟨1, 2, 3, 0⟩
    ∧ matchesHHMMSS "1:2:3" = false := by
  refine ⟨by decide, by decide⟩

/-- C6 (amended): the Time Parser anchors its result to the current calendar
day, and it succeeds exactly on strings of three colon-separated fields,
each a single decimal digit (any Unicode decimal digit, since `\d` is not
ASCII-only) or two decimal digits forming an in-range value (hour at most
23, minute and second at most 59) whose first digit is ASCII — the leading
classes of the field patterns are ASCII-literal — an hour of 20 to 23
needing its second digit ASCII as well; every other string fails with the
caught parse error. -/
theorem parse_succeeds_iff_valid (today : Date) (s : String) :
    ((parse_today today s).isSome = validTimeString s)
    ∧ (∀ d, parse_today today s = some d → d.date = today) := by
  refine ⟨?_, ?_⟩
  · rw [parse_today, Option.isSome_map', parse_timestring_isSome]
  · intro d hd
    rw [parse_today] at hd
    cases hp : parse_timestring s with
    | none => rw [hp] at hd; simp at hd
    | some t =>
      rw [hp] at hd
      have hdt : d = ⟨today, t⟩ := by simpa using hd.symm
      rw [hdt]

/-- Witness for C6 at the valid string `"07:08:09"`: the parse succeeds and
its result carries today's date. -/
theorem parse_succeeds_iff_valid_witness :
    ((parse_today d0 "07:08:09").isSome = validTimeString "07:08:09")
    ∧ (⟨d0, ⟨7, 8, 9, 0⟩⟩ : DateTime).date = d0 := by
  have h := parse_succeeds_iff_valid d0 "07:08:09"
  exact ⟨h.1, h.2 ⟨d0, ⟨7, 8, 9, 0⟩⟩ (by decide)⟩
